import Mathlib

/-!
Shallow embedding of the `pknulms` Go package (an LMS web-portal client for
Pukyong National University) and proofs about its parsing and error-handling
contract.

The embedding follows the sources `lms.go`, `note.go` and `util.go`.  Where the
repository contains several revisions of the same function, the embedding
models the revision that carries the precondition and pattern guards (the
`GetNotifications` in `note.go`, which also extracts the `ID` field).  Network
effects are made explicit: each operation takes the outcome of its HTTP
request(s) as an argument, and the HTML document is represented by the parts of
it the code actually inspects (the selected list items with their anchor
attributes and span texts).  Go runtime panics are modelled by a dedicated
result constructor, distinct from returned `error` values.
-/

namespace Pknulms

/-! ## String helpers modelling the Go standard library -/

/-- The single-quote character, used by the `onclick` literal scanner. -/
def squote : Char := '\''

/-- The newline character.  Go's regexp `.` does not match it. -/
def newlineChar : Char := '\n'

/-- Whitespace predicate of Go's `unicode.IsSpace` restricted to the Latin-1
range, which covers every character these pages produce:
`\t \n \v \f \r ' '` and `U+0085`, `U+00A0`. -/
def goIsSpace (c : Char) : Bool :=
  c = ' ' || c = '\t' || c = '\n' || c = '\x0b' || c = '\x0c' || c = '\r' ||
  c = '\u0085' || c = '\u00A0'

/-- Model of Go `strings.TrimSpace`: drop whitespace from both ends. -/
def goTrimSpace (s : String) : String :=
  String.mk (((s.data.dropWhile goIsSpace).reverse.dropWhile goIsSpace).reverse)

/-- Predicate `leadsWith pat l`: true iff `pat` is an initial segment of `l`. -/
def leadsWith : List Char → List Char → Bool
  | [], _ => true
  | _ :: _, [] => false
  | p :: ps, c :: cs => p = c && leadsWith ps cs

/-- Predicate `containsSeq pat l`: true iff `pat` occurs contiguously inside `l`.
Model of Go `strings.Contains` (with arguments swapped). -/
def containsSeq (pat : List Char) : List Char → Bool
  | [] => leadsWith pat []
  | c :: cs => leadsWith pat (c :: cs) || containsSeq pat cs

/-- Model of Go `strings.Contains s sub`. -/
def strContains (s sub : String) : Bool :=
  containsSeq sub.data s.data

/-- Split a character list at the first occurrence of `sep` (nonempty):
`some (before, after)` with the separator removed, `none` when `sep` does not
occur.  This is the core of Go `strings.SplitN (s, sep, 2)`. -/
def splitFirstChars (sep : List Char) : List Char → Option (List Char × List Char)
  | [] => none
  | c :: cs =>
    if leadsWith sep (c :: cs) then some ([], (c :: cs).drop sep.length)
    else
      match splitFirstChars sep cs with
      | some (a, b) => some (c :: a, b)
      | none => none

/-- Model of `splitString` from `util.go`:

```go
func splitString(s, sep string) (string, string) {
    t := strings.SplitN(s, sep, 2)
    return t[0], t[1]
}
```

When `sep` does not occur in `s`, `SplitN` yields a one-element slice and the
access `t[1]` panics with an index-out-of-range runtime error; that panic is
modelled by `none` (the callers map it to the panic constructor). -/
def splitString (s sep : String) : Option (String × String) :=
  match splitFirstChars sep.data s.data with
  | some (a, b) => some (String.mk a, String.mk b)
  | none => none

/-- Scanner state machine modelling Go regexp
`FindAllStringSubmatch` for the pattern `'(.*?)'` (capture groups listed in
order): the first argument is `none` outside a quoted literal and
`some acc` (content so far, reversed) inside one.  `.` does not match a
newline, so a literal left open at a newline is abandoned and scanning resumes
after it; an unterminated literal at the end of the string is dropped. -/
def jsLitsAux : Option (List Char) → List Char → List String
  | none, [] => []
  | none, c :: rest =>
    if c = squote then jsLitsAux (some []) rest else jsLitsAux none rest
  | some _, [] => []
  | some acc, c :: rest =>
    if c = squote then String.mk acc.reverse :: jsLitsAux none rest
    else if c = newlineChar then jsLitsAux none rest
    else jsLitsAux (some (c :: acc)) rest

/-- The list of single-quoted string literals occurring in `s`, in order:
model of `jsStringRe.FindAllStringSubmatch(s, -1)` mapped to the capture
group, for `jsStringRe = '(.*?)'`. -/
def jsStringLiterals (s : String) : List String :=
  jsLitsAux none s.data

/-- Model of `idRe.FindStringSubmatch href` for `idRe = =(\d+)$` on the
reversed character list: strip the digits from the front (the digit suffix of
the original string), require it nonempty and followed (originally: preceded)
by `=`. -/
def idReMatchAux (rev : List Char) : Option (List Char) :=
  let ds := rev.takeWhile Char.isDigit
  let rest := rev.dropWhile Char.isDigit
  if ds.isEmpty then none
  else
    match rest with
    | '=' :: _ => some ds.reverse
    | _ => none

/-- The capture group of `=(\d+)$` applied to `href`, when the pattern
matches. -/
def idReMatch (href : String) : Option String :=
  (idReMatchAux href.data.reverse).map String.mk

/-- Numeric value of a decimal digit list. -/
def digitsToNat (l : List Char) : Nat :=
  l.foldl (fun acc c => acc * 10 + (c.toNat - '0'.toNat)) 0

/-- Model of Go `strconv.Atoi` on the strings it is applied to here (nonempty
decimal digit runs captured by `=(\d+)$`): the value as an `Int`, or a range
error when it exceeds the largest 64-bit signed integer. -/
def goAtoi (s : String) : Except String Int :=
  let v := digitsToNat s.data
  if v ≤ 9223372036854775807 then Except.ok (Int.ofNat v)
  else Except.error ("strconv.Atoi: parsing \x22" ++ s ++ "\x22: value out of range")

/-- The literal part of the date pattern
`dateRe = ^(.+?) \| 마감일\((.+?)\)$` between the two capture groups. -/
def dateSep : List Char := (" | 마감일(").data

/-- Given the remainder after the separator, extract the second capture group
of `dateRe`: the remainder must end in `)`, and the part before that final
`)` must be nonempty and newline-free (since `.` does not match newline). -/
def dateTail (r : List Char) : Option (List Char) :=
  match r.reverse with
  | ')' :: revG2 =>
    let g2 := revG2.reverse
    if !g2.isEmpty && g2.all (fun c => c ≠ newlineChar) then some g2 else none
  | _ => none

/-- One match attempt of `dateRe` at the current position: the first group
candidate is `g1rev` (reversed) and must be nonempty, the separator must start
`rest`, and `dateTail` must accept what follows. -/
def dateAttempt (g1rev rest : List Char) : Option (String × String) :=
  if leadsWith dateSep rest && !g1rev.isEmpty then
    match dateTail (rest.drop dateSep.length) with
    | some g2 => some (String.mk g1rev.reverse, String.mk g2)
    | none => none
  else none

/-- Lazy-first-group search of `dateRe`: try a match at each position from the
left; the first group cannot contain a newline, so reaching one fails the
whole match. -/
def dateMatchAux : List Char → List Char → Option (String × String)
  | _, [] => none
  | g1rev, c :: cs =>
    match dateAttempt g1rev (c :: cs) with
    | some p => some p
    | none => if c = newlineChar then none else dateMatchAux (c :: g1rev) cs

/-- Model of `dateRe.FindStringSubmatch s` for
`dateRe = ^(.+?) \| 마감일\((.+?)\)$`, returning the two capture groups when
the pattern matches. -/
def dateReMatch (s : String) : Option (String × String) :=
  dateMatchAux [] s.data

/-! ## Data model -/

/-- Structure `Lecture` from `lms.go` / `note.go`. -/
structure Lecture where
  Key : String
  Name : String
deriving DecidableEq, Repr

/-- Structure `Notification` from the `note.go` revision of the extractor (the one that
also carries the numeric `ID` parsed from the `href` query string).  The Go
field `Type` is rendered `Type'` because `Type` is reserved in Lean; the
`*Lecture` pointer is flattened into the owned value. -/
structure Notification where
  ID : Int
  Link : String
  Type' : String
  Title : String
  Datetime : String
  Submitted : Bool
  Lecture : Lecture
  Professor : String
  PreviewContent : String
deriving DecidableEq, Repr

/-- A Go runtime panic, identified by the program point that raised it. -/
inductive GoPanic where
  /-- An index-out-of-range runtime error: `site` names the offending access
  (`"splitString"` for `t[1]` in `util.go`, `"previewSpan"` for `t[1]` on the
  span texts in `GetNotifications`), `idx` the index and `len` the length. -/
  | indexOOB (site : String) (idx len : Nat)
  /-- `panic(err)` on an error value with the given message. -/
  | errValue (msg : String)
deriving DecidableEq, Repr

/-- Returned `error` values, classified by the spec's taxonomy; each carries
the exact message string the source builds. -/
inductive LMSErr where
  | precondition (msg : String)
  | transport (msg : String)
  | protocol (msg : String)
  | parse (msg : String)
deriving DecidableEq, Repr

/-- The `.site-link` anchor of one data item: its text and its optional
`href` / `onclick` attributes. -/
structure Anchor where
  text : String
  href : Option String
  onclick : Option String
deriving DecidableEq, Repr

/-- One data item of the listing document: the second `<li>` of a
`.resultBox` entry, represented by the parts `GetNotifications` inspects. -/
structure Item where
  /-- `s.Find(".site-link").First()`: `none` when the item has no such
  anchor (goquery then yields an empty selection: empty text, no
  attributes). -/
  anchor : Option Anchor
  /-- The raw texts of `s.Find("span")` in document order. -/
  spanTexts : List String
  /-- The raw texts of `s.Find("div").Last().Find("a")` in document order
  (empty when the item has no `div` or the last `div` has no anchors). -/
  lastDivAnchorTexts : List String
deriving DecidableEq, Repr

/-- Model of `a.Text()` on the possibly-empty `.site-link` selection. -/
def anchorText (it : Item) : String :=
  match it.anchor with
  | some a => a.text
  | none => ""

/-- Model of `a.Attr("href")`: `none` both when the attribute is absent and when the
selection is empty. -/
def anchorHref (it : Item) : Option String :=
  it.anchor.bind Anchor.href

/-- Model of `a.Attr("onclick")`, same conventions as `anchorHref`. -/
def anchorOnclick (it : Item) : Option String :=
  it.anchor.bind Anchor.onclick

/-- Result of processing one data item inside the `EachWithBreak` closure. -/
inductive ItemStep where
  | ok (n : Notification)
  | err (e : LMSErr)
  | panicked (p : GoPanic)
deriving DecidableEq, Repr

/-- Outcome of the listing request and document parse: either the error
returned before iteration starts (transport failure of `PostForm`, or a
`goquery.NewDocumentFromResponse` failure), or the selected data items. -/
inductive FetchResult where
  | failure (e : LMSErr)
  | items (its : List Item)
deriving DecidableEq, Repr

/-- Outcome of `GetNotifications`: a normal Go return `(result, e)` — where a
non-`nil` error may well be accompanied by a non-empty partial `result` — or
a runtime panic that unwinds the call. -/
inductive GNResult where
  | ret (result : List Notification) (e : Option LMSErr)
  | panicked (p : GoPanic)
deriving DecidableEq, Repr

/-! ## The notification extractor (`GetNotifications`, `note.go`) -/

/-- The body of the `EachWithBreak` closure of `GetNotifications` applied to
one data item, following the source line by line: split the anchor text,
check `href`, match `=(\d+)$`, `Atoi`, build the link, check `onclick`, take
the second single-quoted literal as the lecture key, read the span texts
(the unguarded `t[1]` panics when there are fewer than two spans), parse the
first span against `dateRe` when the type is the assignment category, and
read professor and lecture name from the last `div`'s anchors. -/
def extractItem (it : Item) : ItemStep :=
  match splitString (goTrimSpace (anchorText it)) ": " with
  | none => ItemStep.panicked (GoPanic.indexOOB "splitString" 1 1)
  | some (typeText, title) =>
    match anchorHref it with
    | none => ItemStep.err (LMSErr.parse "Missing \x27href\x27 attribute for the site-link tag")
    | some href =>
      match idReMatch href with
      | none => ItemStep.err (LMSErr.parse ("Mismatching \x27href\x27 pattern: " ++ href))
      | some digits =>
        match goAtoi digits with
        | Except.error msg => ItemStep.err (LMSErr.parse msg)
        | Except.ok id =>
          let link := "http://lms.pknu.ac.kr" ++ href
          match anchorOnclick it with
          | none => ItemStep.err (LMSErr.parse "Missing \x27onclick\x27 attribute for the site-link tag")
          | some onclick =>
            let lits := jsStringLiterals onclick
            if hlits : lits.length < 2 then
              ItemStep.err (LMSErr.parse ("Mismatching \x27onclick\x27 pattern: " ++ onclick))
            else
              let key := lits.get ⟨1, by omega⟩
              let ts := it.spanTexts.map goTrimSpace
              if hts : ts.length < 2 then
                ItemStep.panicked (GoPanic.indexOOB "previewSpan" 1 ts.length)
              else
                let previewContent := ts.get ⟨1, by omega⟩
                let t0 := ts.get ⟨0, by omega⟩
                let divTexts := it.lastDivAnchorTexts.map goTrimSpace
                let professor := (divTexts.get? 0).getD ""
                let lectureName := (divTexts.get? 1).getD ""
                if typeText = "과제" then
                  match dateReMatch t0 with
                  | none => ItemStep.err (LMSErr.parse ("Mismatching dateText pattern: " ++ t0))
                  | some (g1, g2) =>
                    ItemStep.ok
                      { ID := id, Link := link, Type' := typeText, Title := title,
                        Datetime := g2, Submitted := g1 == "제출",
                        Lecture := { Key := key, Name := lectureName },
                        Professor := professor, PreviewContent := previewContent }
                else
                  ItemStep.ok
                    { ID := id, Link := link, Type' := typeText, Title := title,
                      Datetime := t0, Submitted := false,
                      Lecture := { Key := key, Name := lectureName },
                      Professor := professor, PreviewContent := previewContent }

/-- The `EachWithBreak` iteration: successful items are appended to the named
return slice `result`; a failing item stores its error into `e` and breaks,
returning the notifications accumulated so far together with the error; a
panic unwinds the whole call. -/
def runItems : List Item → List Notification → GNResult
  | [], acc => GNResult.ret acc none
  | it :: rest, acc =>
    match extractItem it with
    | ItemStep.ok n => runItems rest (acc ++ [n])
    | ItemStep.err e => GNResult.ret acc (some e)
    | ItemStep.panicked p => GNResult.panicked p

/-- Model of `GetNotifications` (the `note.go` revision): reject `count < 8` before the
network request (the result is a function of `start`/`count` alone in that
case), surface transport or document errors, and otherwise iterate over the
selected data items.  The `start` parameter only influences the network
request and is kept for signature fidelity. -/
def getNotifications (_start count : Int) (fetch : FetchResult) : GNResult :=
  if count < 8 then GNResult.ret [] (some (LMSErr.precondition "Count must be >= 8"))
  else
    match fetch with
    | FetchResult.failure e => GNResult.ret [] (some e)
    | FetchResult.items its => runItems its []

/-- Model of `GetNotificationsByPage`: `return c.GetNotifications((page-1)*20+1, 20)`. -/
def getNotificationsByPage (page : Int) (fetch : FetchResult) : GNResult :=
  getNotifications ((page - 1) * 20 + 1) 20 fetch

/-! ## Authentication (`Login`, `lms.go`) -/

/-- An HTTP response as `Login` observes it: status code and body text. -/
structure HTTPResponse where
  statusCode : Int
  body : String
deriving DecidableEq, Repr

/-- The literal failure marker the portal emits on bad credentials. -/
def loginFailureMarker : String := "로그인 정보가 일치하지 않습니다."

/-- Model of `Login` (`lms.go`): a transport failure of the form POST propagates; a
non-200 status is a protocol error; otherwise success is the absence of the
failure marker in the body. -/
def login (resp : Except String HTTPResponse) : Except LMSErr Bool :=
  match resp with
  | Except.error m => Except.error (LMSErr.transport m)
  | Except.ok r =>
    if r.statusCode ≠ 200 then
      Except.error (LMSErr.protocol ("Expected HTTP status code 200, got " ++ toString r.statusCode))
    else
      Except.ok (!strContains r.body loginFailureMarker)

/-! ## Content fetcher (`prefetchArticle`, `GetNotificationContent`, `note.go`) -/

/-- The JSON envelope of the prefetch endpoint
(`{isError, message, lectType, returnURL}`). -/
structure PrefetchEnvelope where
  isError : Bool
  message : String
  lectType : String
  returnURL : String
deriving DecidableEq, Repr

/-- Outcome of the prefetch POST as `prefetchArticle` observes it: a
transport failure of `PostForm`, a body-read failure of `ioutil.ReadAll`, a
body that `json.Unmarshal` rejects (with the decoder's error message), or the
decoded envelope. -/
inductive PrefetchFetch where
  | transportErr (m : String)
  | readErr (m : String)
  | badJSON (m : String)
  | body (r : PrefetchEnvelope)
deriving DecidableEq, Repr

/-- Result of `prefetchArticle`: success, a returned error, or a panic. -/
inductive PrefetchStep where
  | ok
  | err (e : LMSErr)
  | panicked (p : GoPanic)
deriving DecidableEq, Repr

/-- Model of `prefetchArticle` (`note.go`): transport and read errors are returned;
a `json.Unmarshal` failure hits `panic(err)` — a runtime panic, not a
returned error; a decoded envelope with `isError` set surfaces its message
as an error. -/
def prefetchArticle (f : PrefetchFetch) : PrefetchStep :=
  match f with
  | PrefetchFetch.transportErr m => PrefetchStep.err (LMSErr.transport m)
  | PrefetchFetch.readErr m => PrefetchStep.err (LMSErr.transport m)
  | PrefetchFetch.badJSON m => PrefetchStep.panicked (GoPanic.errValue m)
  | PrefetchFetch.body r =>
    if r.isError then PrefetchStep.err (LMSErr.protocol r.message) else PrefetchStep.ok

/-- One child node of the `.bbsview .textviewer` container, as the serializer
distinguishes them via `goquery.NodeName`. -/
inductive CNode where
  /-- A `<script>` element (its raw content is irrelevant: it is dropped). -/
  | script (raw : String)
  /-- A plain text node (`#text`). -/
  | textNode (s : String)
  /-- Any other node, represented by its serialized outer markup. -/
  | elem (outerHtml : String)
deriving DecidableEq, Repr

/-- The `Map` function of the serializer: scripts become the empty string,
text nodes their trimmed text, all other nodes their trimmed outer markup. -/
def renderContentNode : CNode → String
  | CNode.script _ => ""
  | CNode.textNode s => goTrimSpace s
  | CNode.elem h => goTrimSpace h

/-- Model of `filterNotEmptyString` from `util.go`: keep the nonempty strings. -/
def filterNotEmptyString (s : List String) : List String :=
  s.filter (fun v => v != "")

/-- Outcome of the detail GET as `GetNotificationContent` observes it: a
transport failure, a document-parse failure of
`goquery.NewDocumentFromResponse`, or the parsed page, represented by the
child nodes of its `.bbsview .textviewer` container (`none` when the page has
no such container; `Contents()` of the empty selection is then the empty
list). -/
inductive DetailFetch where
  | transportErr (m : String)
  | docErr (m : String)
  | page (container : Option (List CNode))
deriving DecidableEq, Repr

/-- Result of `GetNotificationContent`. -/
inductive ContentResult where
  | ok (s : String)
  | err (e : LMSErr)
  | panicked (p : GoPanic)
deriving DecidableEq, Repr

/-- Serialization of the content container: map the child nodes, drop the
empty fragments, join with newlines. -/
def serializeViewer (container : Option (List CNode)) : String :=
  let nodes := match container with
    | none => []
    | some ns => ns
  String.intercalate "\n" (filterNotEmptyString (nodes.map renderContentNode))

/-- Model of `GetNotificationContent` (`note.go`): run the prefetch step (whose panic
or error propagates), then fetch the detail page and serialize its content
container. -/
def getNotificationContent (pre : PrefetchFetch) (detail : DetailFetch) : ContentResult :=
  match prefetchArticle pre with
  | PrefetchStep.panicked p => ContentResult.panicked p
  | PrefetchStep.err e => ContentResult.err e
  | PrefetchStep.ok =>
    match detail with
    | DetailFetch.transportErr m => ContentResult.err (LMSErr.transport m)
    | DetailFetch.docErr m => ContentResult.err (LMSErr.transport m)
    | DetailFetch.page container => ContentResult.ok (serializeViewer container)

/-! ## Derived iteration helper -/

/-- All items extracted successfully, in order: `some` of the notification
list when every item yields `ItemStep.ok`, `none` otherwise. -/
def extractAll : List Item → Option (List Notification)
  | [] => some []
  | it :: rest =>
    match extractItem it with
    | ItemStep.ok n => (extractAll rest).map (fun ns => n :: ns)
    | ItemStep.err _ => none
    | ItemStep.panicked _ => none

/-! ## Concrete fixtures used by witnesses and counterexamples -/

/-- A fully well-formed assignment-type listing item. -/
def sampleItem : Item :=
  { anchor := some
      { text := "  과제: Homework 3  ",
        href := some "/ilos/st/course/submit_view_form.acl?ARTL_NUM=123",
        onclick := some "doArticleMove(\x27A\x27,\x27KEY01\x27)" },
    spanTexts := ["제출 | 마감일(2024-05-01)", " preview text "],
    lastDivAnchorTexts := [" Prof. Kim ", " Data Structures "] }

/-- The notification `extractItem` builds from `sampleItem`. -/
def sampleNotification : Notification :=
  { ID := 123,
    Link := "http://lms.pknu.ac.kr/ilos/st/course/submit_view_form.acl?ARTL_NUM=123",
    Type' := "과제",
    Title := "Homework 3",
    Datetime := "2024-05-01",
    Submitted := true,
    Lecture := { Key := "KEY01", Name := "Data Structures" },
    Professor := "Prof. Kim",
    PreviewContent := "preview text" }

/-- A well-formed non-assignment listing item. -/
def plainItem : Item :=
  { anchor := some
      { text := " 공지: General ",
        href := some "/ilos/board/view.acl?num=77",
        onclick := some "go(\x27x\x27,\x27KEY77\x27)" },
    spanTexts := ["2024-11-02 13:00", " body preview "],
    lastDivAnchorTexts := ["Prof. Lee"] }

/-- The notification `extractItem` builds from `plainItem`. -/
def plainNotification : Notification :=
  { ID := 77,
    Link := "http://lms.pknu.ac.kr/ilos/board/view.acl?num=77",
    Type' := "공지",
    Title := "General",
    Datetime := "2024-11-02 13:00",
    Submitted := false,
    Lecture := { Key := "KEY77", Name := "" },
    Professor := "Prof. Lee",
    PreviewContent := "body preview" }

/-- An item whose anchor carries no `href` attribute. -/
def noHrefItem : Item :=
  { anchor := some
      { text := "공지: Notice", href := none, onclick := some "x(\x27a\x27,\x27b\x27)" },
    spanTexts := ["2024-05-02", "p"],
    lastDivAnchorTexts := [] }

/-- An item whose anchor text contains no `": "` separator. -/
def noSepItem : Item :=
  { anchor := some
      { text := "공지사항", href := some "/x?n=1", onclick := some "a(\x271\x27,\x272\x27)" },
    spanTexts := ["d", "p"],
    lastDivAnchorTexts := [] }

/-- An item whose anchor carries no `onclick` attribute. -/
def noOnclickItem : Item :=
  { anchor := some { text := "공지: B", href := some "/x?p=3", onclick := none },
    spanTexts := ["t", "p"],
    lastDivAnchorTexts := [] }

/-- An item whose `onclick` holds a single quoted literal. -/
def oneLitItem : Item :=
  { anchor := some
      { text := "공지: C", href := some "/y?p=4", onclick := some "f(\x27only\x27)" },
    spanTexts := ["t", "p"],
    lastDivAnchorTexts := [] }

/-- An item with a single `span` descendant (well-formed otherwise). -/
def oneSpanItem : Item :=
  { anchor := some
      { text := "공지: A", href := some "/x?p=9", onclick := some "f(\x27u\x27,\x27v\x27)" },
    spanTexts := ["only"],
    lastDivAnchorTexts := [] }

/-! ## Theorems -/

/-- C1: for every `count < 8` and every `start`, `GetNotifications` returns
the precondition error with an empty result, uniformly in the outcome of the
listing request — the rejection happens before the network is consulted. -/
theorem getNotifications_rejects_low_count (start count : Int) (fetch : FetchResult)
    (h : count < 8) :
    getNotifications start count fetch =
      GNResult.ret [] (some (LMSErr.precondition "Count must be >= 8")) := by
  unfold getNotifications
  rw [if_pos h]

/-- Witness for C1 at `start = 1`, `count = 7`. -/
theorem getNotifications_rejects_low_count_witness :
    getNotifications 1 7 (FetchResult.items [sampleItem]) =
      GNResult.ret [] (some (LMSErr.precondition "Count must be >= 8")) :=
  getNotifications_rejects_low_count 1 7 (FetchResult.items [sampleItem]) (by decide)

/-- C5: `GetNotificationsByPage page` delegates to
`GetNotifications ((page-1)*20+1) 20` for every page and every fixed listing
response; in particular page 1 maps to `(1, 20)` and page 3 to `(41, 20)`. -/
theorem getNotificationsByPage_delegates :
    (∀ (page : Int) (fetch : FetchResult),
        getNotificationsByPage page fetch = getNotifications ((page - 1) * 20 + 1) 20 fetch) ∧
    (∀ fetch : FetchResult, getNotificationsByPage 1 fetch = getNotifications 1 20 fetch) ∧
    (∀ fetch : FetchResult, getNotificationsByPage 3 fetch = getNotifications 41 20 fetch) := by
  refine ⟨fun page fetch => rfl, fun fetch => ?_, fun fetch => ?_⟩
  · show getNotifications ((1 - 1) * 20 + 1) 20 fetch = getNotifications 1 20 fetch
    norm_num
  · show getNotifications ((3 - 1) * 20 + 1) 20 fetch = getNotifications 41 20 fetch
    norm_num

/-- C9: a prefetch response whose body is not well-formed JSON makes
`prefetchArticle` — and with it `GetNotificationContent` — panic via
`panic(err)`, rather than return the parse failure as an error value. -/
theorem prefetch_bad_json_panics :
    prefetchArticle (PrefetchFetch.badJSON "invalid character \x27<\x27 looking for beginning of value") =
      PrefetchStep.panicked (GoPanic.errValue "invalid character \x27<\x27 looking for beginning of value") ∧
    getNotificationContent
        (PrefetchFetch.badJSON "invalid character \x27<\x27 looking for beginning of value")
        (DetailFetch.page none) =
      ContentResult.panicked (GoPanic.errValue "invalid character \x27<\x27 looking for beginning of value") :=
  ⟨rfl, rfl⟩

/-- C7: after a successful prefetch, `GetNotificationContent` serializes the
children of the content container — scripts to the empty string, text nodes
to their trimmed text, other elements to their trimmed outer markup — keeps
the nonempty fragments and joins them with newlines; an absent container
yields the empty string with no error. -/
theorem getNotificationContent_serializes (pre : PrefetchFetch)
    (hpre : prefetchArticle pre = PrefetchStep.ok) :
    (∀ nodes : List CNode,
        getNotificationContent pre (DetailFetch.page (some nodes)) =
          ContentResult.ok
            (String.intercalate "\n" (filterNotEmptyString (nodes.map renderContentNode)))) ∧
    getNotificationContent pre (DetailFetch.page none) = ContentResult.ok "" := by
  constructor
  · intro nodes
    unfold getNotificationContent
    rw [hpre]
    rfl
  · unfold getNotificationContent
    rw [hpre]
    rfl

/-- Witness for C7: a script child is dropped, a text child and an element
child are trimmed and joined; the absent container yields `""`. -/
theorem getNotificationContent_serializes_witness :
    getNotificationContent (PrefetchFetch.body ⟨false, "", "", ""⟩)
        (DetailFetch.page (some
          [CNode.script "alert(1)", CNode.textNode "  hello  ", CNode.elem " <p>x</p> "])) =
      ContentResult.ok "hello\n<p>x</p>" ∧
    getNotificationContent (PrefetchFetch.body ⟨false, "", "", ""⟩) (DetailFetch.page none) =
      ContentResult.ok "" := by
  have h := getNotificationContent_serializes (PrefetchFetch.body ⟨false, "", "", ""⟩) rfl
  exact ⟨(h.1 [CNode.script "alert(1)", CNode.textNode "  hello  ", CNode.elem " <p>x</p> "]).trans
      (by decide), h.2⟩

/-- C8: `Login` returns `(false, nil)` exactly for an HTTP 200 response whose
body contains the failure marker, `(true, nil)` for an HTTP 200 response
without it, and a protocol error — no boolean result — for any other
status. -/
theorem login_success_criterion (st : Int) (body : String) :
    (st = 200 → strContains body loginFailureMarker = true →
        login (Except.ok ⟨st, body⟩) = Except.ok false) ∧
    (st = 200 → strContains body loginFailureMarker = false →
        login (Except.ok ⟨st, body⟩) = Except.ok true) ∧
    (st ≠ 200 →
        login (Except.ok ⟨st, body⟩) =
          Except.error (LMSErr.protocol ("Expected HTTP status code 200, got " ++ toString st))) := by
  refine ⟨fun h1 h2 => ?_, fun h1 h2 => ?_, fun h => ?_⟩
  · subst h1
    simp [login, h2]
  · subst h1
    simp [login, h2]
  · simp [login, h]

/-- Witness for C8: marker body at 200 yields `false`, clean body at 200
yields `true`, status 500 yields the protocol error. -/
theorem login_success_criterion_witness :
    login (Except.ok ⟨200, loginFailureMarker⟩) = Except.ok false ∧
    login (Except.ok ⟨200, "main page"⟩) = Except.ok true ∧
    login (Except.ok ⟨500, "oops"⟩) =
      Except.error (LMSErr.protocol "Expected HTTP status code 200, got 500") := by
  refine ⟨(login_success_criterion 200 loginFailureMarker).1 rfl (by decide),
    (login_success_criterion 200 "main page").2.1 rfl (by decide),
    ((login_success_criterion 500 "oops").2.2 (by decide)).trans
      (congrArg (fun m => Except.error (LMSErr.protocol m)) (by decide))⟩

/-- C2 counterexample: with a first item that parses and a second item whose
anchor lacks `href`, `GetNotifications` returns the parse error together
with a non-empty result list — the previously parsed item is not
discarded. -/
theorem getNotifications_missing_href_keeps_items :
    getNotifications 1 20 (FetchResult.items [sampleItem, noHrefItem]) =
      GNResult.ret [sampleNotification]
        (some (LMSErr.parse "Missing \x27href\x27 attribute for the site-link tag")) ∧
    ([sampleNotification] : List Notification) ≠ [] := by
  exact ⟨by decide, by decide⟩

/-- C3 counterexample: an item whose anchor text has no `": "` separator
makes the whole call panic with an index-out-of-range runtime error inside
`splitString` — no `ParseError` value is returned. -/
theorem getNotifications_no_separator_panics :
    getNotifications 1 20 (FetchResult.items [noSepItem]) =
      GNResult.panicked (GoPanic.indexOOB "splitString" 1 1) := rfl

/-- Iteration over a prefix whose items all extract successfully just appends
their notifications to the accumulator. -/
theorem runItems_append_of_extractAll (pre : List Item) :
    ∀ (ns acc : List Notification) (rest : List Item),
      extractAll pre = some ns →
      runItems (pre ++ rest) acc = runItems rest (acc ++ ns) := by
  induction pre with
  | nil =>
    intro ns acc rest h
    simp only [extractAll, Option.some.injEq] at h
    subst h
    simp
  | cons it pre ih =>
    intro ns acc rest h
    simp only [extractAll] at h
    cases hit : extractItem it with
    | ok n =>
      rw [hit] at h
      cases hpre : extractAll pre with
      | none => rw [hpre] at h; simp at h
      | some ns' =>
        rw [hpre] at h
        simp only [Option.map_some', Option.some.injEq] at h
        subst h
        simp only [List.cons_append, runItems, hit, List.append_eq]
        rw [ih ns' (acc ++ [n]) rest hpre]
        simp
    | err e => rw [hit] at h; simp at h
    | panicked p => rw [hit] at h; simp at h

/-- C2 amended: a data item whose anchor lacks `href` aborts the call with
the parse error and stops the iteration, but the notifications of the items
parsed before it are returned alongside the error, not discarded. -/
theorem getNotifications_missing_href_aborts (start count : Int)
    (pre post : List Item) (it : Item) (ns : List Notification)
    (hc : ¬count < 8)
    (hpre : extractAll pre = some ns)
    (hbad : extractItem it =
      ItemStep.err (LMSErr.parse "Missing \x27href\x27 attribute for the site-link tag")) :
    getNotifications start count (FetchResult.items (pre ++ it :: post)) =
      GNResult.ret ns
        (some (LMSErr.parse "Missing \x27href\x27 attribute for the site-link tag")) := by
  unfold getNotifications
  rw [if_neg hc]
  show runItems (pre ++ it :: post) [] = _
  rw [runItems_append_of_extractAll pre ns [] (it :: post) hpre]
  simp [runItems, hbad]

/-- Witness for C2 amended at a two-item listing. -/
theorem getNotifications_missing_href_aborts_witness :
    getNotifications 1 20 (FetchResult.items [sampleItem, noHrefItem]) =
      GNResult.ret [sampleNotification]
        (some (LMSErr.parse "Missing \x27href\x27 attribute for the site-link tag")) :=
  getNotifications_missing_href_aborts 1 20 [sampleItem] [] noHrefItem
    [sampleNotification] (by decide) (by decide) (by decide)

/-- A nonempty pattern does not lead the empty list. -/
theorem leadsWith_nil (sep : List Char) (h : sep ≠ []) : leadsWith sep [] = false := by
  cases sep with
  | nil => exact absurd rfl h
  | cons p ps => rfl

/-- Every list leads itself. -/
theorem leadsWith_self (l : List Char) : leadsWith l l = true := by
  induction l with
  | nil => rfl
  | cons c cs ih => simp [leadsWith, ih]

/-- Leading is preserved by extending the list on the right. -/
theorem leadsWith_append (sep l m : List Char) (h : leadsWith sep l = true) :
    leadsWith sep (l ++ m) = true := by
  induction sep generalizing l with
  | nil => rfl
  | cons p ps ih =>
    cases l with
    | nil => simp [leadsWith] at h
    | cons c cs =>
      rw [leadsWith, Bool.and_eq_true] at h
      rw [List.cons_append, leadsWith, Bool.and_eq_true]
      exact ⟨h.1, ih cs h.2⟩

/-- A list led by `sep` decomposes as `sep` followed by the rest. -/
theorem leadsWith_eq_append (sep : List Char) :
    ∀ l : List Char, leadsWith sep l = true → l = sep ++ l.drop sep.length := by
  induction sep with
  | nil => intro l _; simp
  | cons p ps ih =>
    intro l h
    cases l with
    | nil => simp [leadsWith] at h
    | cons c cs =>
      rw [leadsWith, Bool.and_eq_true, decide_eq_true_eq] at h
      obtain ⟨h1, h2⟩ := h
      subst h1
      simp only [List.length_cons, List.drop_succ_cons, List.cons_append, List.cons.injEq,
        true_and]
      exact ih cs h2

/-- A list of the form `a ++ sep ++ b` contains `sep`. -/
theorem containsSeq_of_append (sep a b : List Char) :
    containsSeq sep (a ++ sep ++ b) = true := by
  induction a with
  | nil =>
    rw [List.nil_append]
    cases hs : sep ++ b with
    | nil =>
      have h1 : sep = [] := (List.append_eq_nil.mp hs).1
      subst h1
      rfl
    | cons c cs =>
      have hl : leadsWith sep (c :: cs) = true :=
        hs ▸ leadsWith_append sep sep b (leadsWith_self sep)
      rw [containsSeq, hl, Bool.true_or]
  | cons c a ih =>
    rw [List.cons_append, List.cons_append, containsSeq, ih, Bool.or_true]

/-- Soundness of `splitFirstChars`: a successful split decomposes the list at
an occurrence of `sep`, and no occurrence of `sep` lies inside the prefix. -/
theorem splitFirstChars_sound (sep : List Char) (hsep : sep ≠ []) :
    ∀ l a b : List Char, splitFirstChars sep l = some (a, b) →
      l = a ++ sep ++ b ∧ containsSeq sep a = false := by
  intro l
  induction l with
  | nil => intro a b h; simp [splitFirstChars] at h
  | cons c cs ih =>
    intro a b h
    rw [splitFirstChars] at h
    by_cases hl : leadsWith sep (c :: cs) = true
    · rw [if_pos hl] at h
      simp only [Option.some.injEq, Prod.mk.injEq] at h
      obtain ⟨ha, hb⟩ := h
      subst ha
      subst hb
      refine ⟨by simpa using leadsWith_eq_append sep (c :: cs) hl, ?_⟩
      rw [containsSeq, leadsWith_nil sep hsep]
    · rw [if_neg hl] at h
      cases hrec : splitFirstChars sep cs with
      | none => rw [hrec] at h; simp at h
      | some p =>
        obtain ⟨a', b'⟩ := p
        rw [hrec] at h
        simp only [Option.some.injEq, Prod.mk.injEq] at h
        obtain ⟨ha, hb⟩ := h
        subst hb
        obtain ⟨hcs, hconta⟩ := ih a' b' hrec
        subst ha
        refine ⟨by simp [hcs], ?_⟩
        rw [containsSeq, hconta, Bool.or_false]
        cases hlw : leadsWith sep (c :: a') with
        | false => rfl
        | true =>
          exfalso
          have hext : leadsWith sep ((c :: a') ++ (sep ++ b')) = true :=
            leadsWith_append sep (c :: a') (sep ++ b') hlw
          have heq : (c :: a') ++ (sep ++ b') = c :: cs := by
            rw [hcs]; simp
          rw [heq] at hext
          exact hl hext

/-- Lemma: `splitFirstChars` fails exactly when `sep` does not occur. -/
theorem splitFirstChars_none_iff (sep : List Char) (hsep : sep ≠ []) :
    ∀ l : List Char, splitFirstChars sep l = none ↔ containsSeq sep l = false := by
  intro l
  induction l with
  | nil => simp [splitFirstChars, containsSeq, leadsWith_nil sep hsep]
  | cons c cs ih =>
    rw [splitFirstChars, containsSeq]
    by_cases hl : leadsWith sep (c :: cs) = true
    · rw [if_pos hl, hl]
      simp
    · rw [if_neg hl]
      have hl' : leadsWith sep (c :: cs) = false := by
        cases hb : leadsWith sep (c :: cs) with
        | false => rfl
        | true => exact absurd hb hl
      rw [hl', Bool.false_or]
      cases hrec : splitFirstChars sep cs with
      | none => simp [ih.mp hrec]
      | some p =>
        obtain ⟨a, b⟩ := p
        have hcs := (splitFirstChars_sound sep hsep cs a b hrec).1
        have : containsSeq sep cs = true := by rw [hcs]; exact containsSeq_of_append sep a b
        simp [this]

/-- Lemma: `dateTail` succeeds exactly by peeling a final `)`. -/
theorem dateTail_sound (r g2 : List Char) (h : dateTail r = some g2) :
    r = g2 ++ [')'] := by
  unfold dateTail at h
  split at h
  next revG2 hrev =>
    dsimp only at h
    split at h
    · simp only [Option.some.injEq] at h
      subst h
      rw [← List.reverse_reverse r, hrev]
      simp
    · exact absurd h (by simp)
  next hrev => exact absurd h (by simp)

/-- Soundness of the `dateRe` matcher: a successful match decomposes the
input as `group1 ++ " | 마감일(" ++ group2 ++ ")"`. -/
theorem dateMatchAux_sound :
    ∀ (rest g1rev : List Char) (g1 g2 : String),
      dateMatchAux g1rev rest = some (g1, g2) →
      g1rev.reverse ++ rest = g1.data ++ dateSep ++ g2.data ++ [')'] := by
  intro rest
  induction rest with
  | nil => intro g1rev g1 g2 h; simp [dateMatchAux] at h
  | cons c cs ih =>
    intro g1rev g1 g2 h
    rw [dateMatchAux] at h
    cases hatt : dateAttempt g1rev (c :: cs) with
    | some p =>
      rw [hatt] at h
      simp only [Option.some.injEq] at h
      subst h
      unfold dateAttempt at hatt
      split at hatt
      next hcond =>
        rw [Bool.and_eq_true] at hcond
        split at hatt
        next g2c htail =>
          simp only [Option.some.injEq, Prod.mk.injEq] at hatt
          obtain ⟨hg1, hg2⟩ := hatt
          have hlead := leadsWith_eq_append dateSep (c :: cs) hcond.1
          have htl := dateTail_sound ((c :: cs).drop dateSep.length) g2c htail
          rw [← hg1, ← hg2]
          calc g1rev.reverse ++ (c :: cs)
              = g1rev.reverse ++ (dateSep ++ (c :: cs).drop dateSep.length) := by rw [← hlead]
            _ = g1rev.reverse ++ (dateSep ++ (g2c ++ [')'])) := by rw [htl]
            _ = (String.mk g1rev.reverse).data ++ dateSep ++ (String.mk g2c).data ++ [')'] := by
                simp
        next => exact absurd hatt (by simp)
      next => exact absurd hatt (by simp)
    | none =>
      rw [hatt] at h
      split at h
      next p heq => simp at heq
      next =>
        split at h
        · simp at h
        · have := ih (c :: g1rev) g1 g2 h
          rw [List.reverse_cons] at this
          rw [← this]
          simp

/-- String-level corollary of `dateMatchAux_sound`. -/
theorem dateReMatch_sound (s : String) (g1 g2 : String)
    (h : dateReMatch s = some (g1, g2)) :
    s.data = g1.data ++ dateSep ++ g2.data ++ [')'] := by
  have := dateMatchAux_sound s.data [] g1 g2 h
  simpa using this

/-- Inversion of a successful `extractItem`: every stage succeeded, and each
field of the resulting notification is determined by the corresponding piece
of the item. -/
theorem extractItem_ok_inv (it : Item) (n : Notification)
    (h : extractItem it = ItemStep.ok n) :
    ∃ typeText title href digits id onclick t0,
      splitString (goTrimSpace (anchorText it)) ": " = some (typeText, title) ∧
      anchorHref it = some href ∧
      idReMatch href = some digits ∧
      goAtoi digits = Except.ok id ∧
      anchorOnclick it = some onclick ∧
      2 ≤ (jsStringLiterals onclick).length ∧
      2 ≤ it.spanTexts.length ∧
      (it.spanTexts.map goTrimSpace).get? 0 = some t0 ∧
      n.Type' = typeText ∧
      n.Title = title ∧
      n.ID = id ∧
      n.Link = "http://lms.pknu.ac.kr" ++ href ∧
      (jsStringLiterals onclick).get? 1 = some n.Lecture.Key ∧
      (it.spanTexts.map goTrimSpace).get? 1 = some n.PreviewContent ∧
      n.Professor = ((it.lastDivAnchorTexts.map goTrimSpace).get? 0).getD "" ∧
      n.Lecture.Name = ((it.lastDivAnchorTexts.map goTrimSpace).get? 1).getD "" ∧
      ((typeText = "과제" ∧
          ∃ g1 g2, dateReMatch t0 = some (g1, g2) ∧
            n.Submitted = (g1 == "제출") ∧ n.Datetime = g2) ∨
        (typeText ≠ "과제" ∧ n.Submitted = false ∧ n.Datetime = t0)) := by
  unfold extractItem at h
  split at h
  · simp at h
  next typeText title hsplit =>
    split at h
    · simp at h
    next href hhref =>
      split at h
      · simp at h
      next digits hid =>
        split at h
        · simp at h
        next id hAtoi =>
          split at h
          · simp at h
          next onclick honc =>
            dsimp only at h
            split at h
            · simp at h
            next hlits =>
              split at h
              · simp at h
              next hts =>
                have hts' : 2 ≤ (it.spanTexts.map goTrimSpace).length := by omega
                have hspan : 2 ≤ it.spanTexts.length := by
                  rw [List.length_map] at hts'; exact hts'
                have hlits' : 2 ≤ (jsStringLiterals onclick).length := by omega
                have hget0 : (it.spanTexts.map goTrimSpace).get? 0 =
                    some ((it.spanTexts.map goTrimSpace).get ⟨0, by omega⟩) :=
                  List.get?_eq_get (by omega)
                have hget1 : (it.spanTexts.map goTrimSpace).get? 1 =
                    some ((it.spanTexts.map goTrimSpace).get ⟨1, by omega⟩) :=
                  List.get?_eq_get (by omega)
                have hkey : (jsStringLiterals onclick).get? 1 =
                    some ((jsStringLiterals onclick).get ⟨1, by omega⟩) :=
                  List.get?_eq_get (by omega)
                split at h
                next hty =>
                  split at h
                  · simp at h
                  next g1 g2 hdate =>
                    injection h with h
                    subst h
                    exact ⟨typeText, title, href, digits, id, onclick,
                      (it.spanTexts.map goTrimSpace).get ⟨0, by omega⟩,
                      hsplit, hhref, hid, hAtoi, honc, hlits', hspan,
                      hget0, rfl, rfl, rfl, rfl, hkey, hget1, rfl, rfl,
                      Or.inl ⟨hty, g1, g2, hdate, rfl, rfl⟩⟩
                next hty =>
                  injection h with h
                  subst h
                  exact ⟨typeText, title, href, digits, id, onclick,
                    (it.spanTexts.map goTrimSpace).get ⟨0, by omega⟩,
                    hsplit, hhref, hid, hAtoi, honc, hlits', hspan,
                    hget0, rfl, rfl, rfl, rfl, hkey, hget1, rfl, rfl,
                    Or.inr ⟨hty, rfl, rfl⟩⟩

/-- C3 amended: the anchor text is split on the first occurrence of `": "`
into `(Type, Title)` — the prefix contains no earlier occurrence — but when
the separator is absent the call panics with an index-out-of-range runtime
error inside `splitString` instead of returning a ParseError. -/
theorem splitString_first_occurrence :
    (∀ s a b : String, splitString s ": " = some (a, b) →
        s.data = a.data ++ (": ").data ++ b.data ∧
        containsSeq ((": ").data) a.data = false) ∧
    (∀ s : String, splitString s ": " = none ↔ strContains s ": " = false) ∧
    (∀ it : Item, splitString (goTrimSpace (anchorText it)) ": " = none →
        extractItem it = ItemStep.panicked (GoPanic.indexOOB "splitString" 1 1)) ∧
    (∀ (it : Item) (n : Notification), extractItem it = ItemStep.ok n →
        ∃ a b, splitString (goTrimSpace (anchorText it)) ": " = some (a, b) ∧
          n.Type' = a ∧ n.Title = b) := by
  refine ⟨?_, ?_, ?_, ?_⟩
  · intro s a b h
    unfold splitString at h
    cases hsp : splitFirstChars ((": ").data) s.data with
    | none => rw [hsp] at h; simp at h
    | some p =>
      obtain ⟨a', b'⟩ := p
      rw [hsp] at h
      simp only [Option.some.injEq, Prod.mk.injEq] at h
      obtain ⟨ha, hb⟩ := h
      subst ha
      subst hb
      exact (splitFirstChars_sound ((": ").data) (by decide) s.data a' b' hsp)
  · intro s
    unfold splitString strContains
    cases hsp : splitFirstChars ((": ").data) s.data with
    | none =>
      simp only [hsp]
      simp [(splitFirstChars_none_iff ((": ").data) (by decide) s.data).mp hsp]
    | some p =>
      obtain ⟨a, b⟩ := p
      simp only [hsp]
      have hdec := (splitFirstChars_sound ((": ").data) (by decide) s.data a b hsp).1
      have hc : containsSeq ((": ").data) s.data = true := by
        rw [hdec]; exact containsSeq_of_append ((": ").data) a b
      simp [hc]
  · intro it h
    unfold extractItem
    rw [h]
  · intro it n h
    obtain ⟨ty, ti, href, digits, id, onclick, t0, hsplit, _, _, _, _, _, _, _,
      hTy, hTi, _⟩ := extractItem_ok_inv it n h
    exact ⟨ty, ti, hsplit, hTy, hTi⟩

/-- Witness for C3 amended: the concrete split of `"과제: Homework 3"`, the
panic on `noSepItem`, and the `(Type, Title)` fields of `sampleItem`. -/
theorem splitString_first_occurrence_witness :
    ("과제: Homework 3").data = ("과제").data ++ (": ").data ++ ("Homework 3").data ∧
    extractItem noSepItem = ItemStep.panicked (GoPanic.indexOOB "splitString" 1 1) ∧
    sampleNotification.Type' = "과제" ∧ sampleNotification.Title = "Homework 3" := by
  obtain ⟨h1, _, h3, h4⟩ := splitString_first_occurrence
  refine ⟨(h1 "과제: Homework 3" "과제" "Homework 3" (by decide)).1,
    h3 noSepItem (by decide), ?_, ?_⟩
  all_goals
    obtain ⟨a, b, hsp, hTy, hTi⟩ := h4 sampleItem sampleNotification (by decide)
  all_goals
    have hconc : splitString (goTrimSpace (anchorText sampleItem)) ": " =
        some ("과제", "Homework 3") := by decide
  all_goals
    have hab := hsp.symm.trans hconc
  all_goals
    simp only [Option.some.injEq, Prod.mk.injEq] at hab
  · exact hTy.trans hab.1
  · exact hTi.trans hab.2

/-- C4: for an item that extracts successfully, an assignment-type first span
is parsed against `"<submitstatus> | 마감일(<date>)"` — `Submitted` is true
exactly when the status group equals `"제출"` and `Datetime` is the date
group — while any other type takes the first span verbatim as `Datetime`
with `Submitted` false. -/
theorem assignment_date_parsing (it : Item) (n : Notification) (t0 : String)
    (hok : extractItem it = ItemStep.ok n)
    (ht0 : (it.spanTexts.map goTrimSpace).get? 0 = some t0) :
    (n.Type' = "과제" →
        ∃ g1 g2, dateReMatch t0 = some (g1, g2) ∧
          t0.data = g1.data ++ dateSep ++ g2.data ++ [')'] ∧
          n.Submitted = (g1 == "제출") ∧ n.Datetime = g2) ∧
    (n.Type' ≠ "과제" → n.Submitted = false ∧ n.Datetime = t0) := by
  obtain ⟨ty, ti, href, digits, id, onclick, t0', hsplit, hhref, hid, hAtoi, honc,
    hlits, hspan, hget0, hTy, hTi, hID, hLink, hkey, hprev, hprof, hname, hdate⟩ :=
    extractItem_ok_inv it n hok
  have ht0' : t0' = t0 := Option.some.inj (hget0.symm.trans ht0)
  rw [ht0'] at hdate
  constructor
  · intro hty
    rcases hdate with ⟨hty', g1, g2, hm, hsub, hdt⟩ | ⟨hty', _, _⟩
    · exact ⟨g1, g2, hm, dateReMatch_sound t0 g1 g2 hm, hsub, hdt⟩
    · exact absurd (hTy.symm.trans hty) hty'
  · intro hty
    rcases hdate with ⟨hty', _, _⟩ | ⟨hty', hsub, hdt⟩
    · exact absurd (hTy.trans hty') hty
    · exact ⟨hsub, hdt⟩

/-- Witness for C4: the spec's two assignment examples and a non-assignment
item. -/
theorem assignment_date_parsing_witness :
    sampleNotification.Submitted = true ∧ sampleNotification.Datetime = "2024-05-01" ∧
    plainNotification.Submitted = false ∧ plainNotification.Datetime = "2024-11-02 13:00" := by
  have h1 := assignment_date_parsing sampleItem sampleNotification
    "제출 | 마감일(2024-05-01)" (by decide) (by decide)
  have h2 := assignment_date_parsing plainItem plainNotification
    "2024-11-02 13:00" (by decide) (by decide)
  obtain ⟨g1, g2, hm, _, hsub, hdt⟩ := h1.1 (by decide)
  have hconc : dateReMatch "제출 | 마감일(2024-05-01)" = some ("제출", "2024-05-01") := by
    decide
  have hab := hm.symm.trans hconc
  simp only [Option.some.injEq, Prod.mk.injEq] at hab
  obtain ⟨hg1, hg2⟩ := hab
  subst hg1
  subst hg2
  exact ⟨hsub.trans (by decide), hdt, (h2.2 (by decide)).1, (h2.2 (by decide)).2⟩

/-- C6: the lecture key is the second single-quoted literal of the anchor's
`onclick` attribute; when — with the earlier stages succeeding — the
attribute is missing or holds fewer than two quoted literals, the call
returns a ParseError value (no crash). -/
theorem lecture_key_second_literal (it : Item) :
    (∀ n : Notification, extractItem it = ItemStep.ok n →
        ∃ oc, anchorOnclick it = some oc ∧ 2 ≤ (jsStringLiterals oc).length ∧
          (jsStringLiterals oc).get? 1 = some n.Lecture.Key) ∧
    ((∃ p, splitString (goTrimSpace (anchorText it)) ": " = some p) →
      (∃ href digits id, anchorHref it = some href ∧ idReMatch href = some digits ∧
          goAtoi digits = Except.ok id) →
      anchorOnclick it = none →
      extractItem it =
        ItemStep.err (LMSErr.parse "Missing \x27onclick\x27 attribute for the site-link tag")) ∧
    (∀ oc : String, (∃ p, splitString (goTrimSpace (anchorText it)) ": " = some p) →
      (∃ href digits id, anchorHref it = some href ∧ idReMatch href = some digits ∧
          goAtoi digits = Except.ok id) →
      anchorOnclick it = some oc →
      (jsStringLiterals oc).length < 2 →
      extractItem it =
        ItemStep.err (LMSErr.parse ("Mismatching \x27onclick\x27 pattern: " ++ oc))) := by
  refine ⟨?_, ?_, ?_⟩
  · intro n hok
    obtain ⟨ty, ti, href, digits, id, onclick, t0, hsplit, hhref, hid, hAtoi, honc,
      hlits, hspan, hget0, hTy, hTi, hID, hLink, hkey, hprev, hprof, hname, hdate⟩ :=
      extractItem_ok_inv it n hok
    exact ⟨onclick, honc, hlits, hkey⟩
  · rintro ⟨⟨ty, ti⟩, hsplit⟩ ⟨href, digits, id, hhref, hid, hAtoi⟩ honc
    simp only [extractItem, hsplit, hhref, hid, hAtoi, honc]
  · rintro oc ⟨⟨ty, ti⟩, hsplit⟩ ⟨href, digits, id, hhref, hid, hAtoi⟩ honc hlen
    simp only [extractItem, hsplit, hhref, hid, hAtoi, honc]
    rw [dif_pos hlen]

/-- Witness for C6: a missing `onclick`, a single-literal `onclick`, and the
key of `sampleItem`. -/
theorem lecture_key_second_literal_witness :
    extractItem noOnclickItem =
      ItemStep.err (LMSErr.parse "Missing \x27onclick\x27 attribute for the site-link tag") ∧
    extractItem oneLitItem =
      ItemStep.err (LMSErr.parse ("Mismatching \x27onclick\x27 pattern: " ++ "f(\x27only\x27)")) ∧
    (jsStringLiterals "doArticleMove(\x27A\x27,\x27KEY01\x27)").get? 1 =
      some sampleNotification.Lecture.Key := by
  refine ⟨(lecture_key_second_literal noOnclickItem).2.1 ⟨("공지", "B"), by decide⟩
      ⟨"/x?p=3", "3", 3, by decide, by decide, rfl⟩ (by decide),
    (lecture_key_second_literal oneLitItem).2.2 "f(\x27only\x27)" ⟨("공지", "C"), by decide⟩
      ⟨"/y?p=4", "4", 4, by decide, by decide, rfl⟩ (by decide) (by decide), ?_⟩
  obtain ⟨oc, hoc, hlen, hkey⟩ :=
    (lecture_key_second_literal sampleItem).1 sampleNotification (by decide)
  have h2 : some "doArticleMove(\x27A\x27,\x27KEY01\x27)" = some oc := hoc
  have hoc' : oc = "doArticleMove(\x27A\x27,\x27KEY01\x27)" := (Option.some.inj h2).symm
  rw [← hoc']
  exact hkey

/-- With at least two spans, the preview-span access cannot be the source of
a panic in `extractItem`. -/
theorem extractItem_no_span_panic (it : Item) (hspan : 2 ≤ it.spanTexts.length) :
    ∀ i l : Nat, extractItem it ≠ ItemStep.panicked (GoPanic.indexOOB "previewSpan" i l) := by
  intro i l h
  unfold extractItem at h
  split at h
  · simp only [ItemStep.panicked.injEq, GoPanic.indexOOB.injEq] at h
    exact absurd h.1 (by decide)
  next ty ti hsplit =>
    split at h
    · simp at h
    next href hhref =>
      split at h
      · simp at h
      next digits hid =>
        split at h
        · simp at h
        next id hAtoi =>
          split at h
          · simp at h
          next onclick honc =>
            dsimp only at h
            split at h
            · simp at h
            next hlits =>
              split at h
              next hts =>
                rw [List.length_map] at hts
                omega
              next hts =>
                split at h
                next hty =>
                  split at h
                  · simp at h
                  next g1 g2 hdate => simp at h
                next hty => simp at h

/-- Iterating over items that all have at least two spans never produces the
preview-span panic. -/
theorem runItems_no_span_panic (items : List Item)
    (hall : ∀ it ∈ items, 2 ≤ it.spanTexts.length) :
    ∀ (acc : List Notification) (i l : Nat),
      runItems items acc ≠ GNResult.panicked (GoPanic.indexOOB "previewSpan" i l) := by
  induction items with
  | nil => intro acc i l h; simp [runItems] at h
  | cons it rest ih =>
    intro acc i l h
    rw [runItems] at h
    cases hit : extractItem it with
    | ok n =>
      rw [hit] at h
      exact ih (fun x hx => hall x (List.mem_cons_of_mem it hx)) (acc ++ [n]) i l h
    | err e => rw [hit] at h; simp at h
    | panicked p =>
      rw [hit] at h
      simp only [GNResult.panicked.injEq] at h
      subst h
      exact extractItem_no_span_panic it (hall it (List.mem_cons_self it rest)) i l hit

/-- C10: the access to the second span text is unguarded — an item with
fewer than two spans (whose earlier stages succeed) makes `extractItem`
panic with an index-out-of-range error rather than return a ParseError —
and under the precondition that every item has at least two spans this
panic is unreachable, both per item and for the whole
`GetNotifications` call. -/
theorem preview_span_access_unguarded (it : Item) :
    ((∃ p, splitString (goTrimSpace (anchorText it)) ": " = some p) →
      (∃ href digits id, anchorHref it = some href ∧ idReMatch href = some digits ∧
          goAtoi digits = Except.ok id) →
      (∃ oc, anchorOnclick it = some oc ∧ 2 ≤ (jsStringLiterals oc).length) →
      it.spanTexts.length < 2 →
      extractItem it =
        ItemStep.panicked (GoPanic.indexOOB "previewSpan" 1 it.spanTexts.length)) ∧
    (2 ≤ it.spanTexts.length →
      ∀ i l : Nat,
        extractItem it ≠ ItemStep.panicked (GoPanic.indexOOB "previewSpan" i l)) ∧
    (∀ (start count : Int) (items : List Item),
      (∀ it' ∈ items, 2 ≤ it'.spanTexts.length) →
      ∀ i l : Nat,
        getNotifications start count (FetchResult.items items) ≠
          GNResult.panicked (GoPanic.indexOOB "previewSpan" i l)) := by
  refine ⟨?_, fun h => extractItem_no_span_panic it h, ?_⟩
  · rintro ⟨⟨ty, ti⟩, hsplit⟩ ⟨href, digits, id, hhref, hid, hAtoi⟩ ⟨oc, honc, hlen⟩ hlt
    simp only [extractItem, hsplit, hhref, hid, hAtoi, honc]
    rw [dif_neg (by omega)]
    rw [dif_pos (by rw [List.length_map]; exact hlt)]
    rw [List.length_map]
  · intro start count items hall i l h
    unfold getNotifications at h
    by_cases hc : count < 8
    · rw [if_pos hc] at h; simp at h
    · rw [if_neg hc] at h
      exact runItems_no_span_panic items hall [] i l h

/-- Witness for C10: the one-span item panics at the preview access, while
well-formed items and a listing of them are immune to that panic. -/
theorem preview_span_access_unguarded_witness :
    extractItem oneSpanItem = ItemStep.panicked (GoPanic.indexOOB "previewSpan" 1 1) ∧
    extractItem sampleItem ≠ ItemStep.panicked (GoPanic.indexOOB "previewSpan" 1 2) ∧
    getNotifications 1 20 (FetchResult.items [sampleItem, plainItem]) ≠
      GNResult.panicked (GoPanic.indexOOB "previewSpan" 1 0) := by
  refine ⟨(preview_span_access_unguarded oneSpanItem).1 ⟨("공지", "A"), by decide⟩
      ⟨"/x?p=9", "9", 9, by decide, by decide, rfl⟩
      ⟨"f(\x27u\x27,\x27v\x27)", by decide, by decide⟩ (by decide),
    (preview_span_access_unguarded sampleItem).2.1 (by decide) 1 2,
    (preview_span_access_unguarded sampleItem).2.2 1 20 [sampleItem, plainItem]
      (by decide) 1 0⟩

end Pknulms
